import Mathlib

/-!
Verification of the space-shooter game server (single-file Go backend,
extended revision with fire-power items and hostile projectiles).

The embedding is shallow: Go float64 coordinates are modelled as rationals
(every constant appearing in the game logic is exactly representable),
Go ints as integers, Go maps as lists iterated in list order (Go map
iteration order is unspecified; the list order is one admissible order,
and the specification's tie-break language is phrased in terms of the
iteration order).  Randomness (`rand.Intn`, UUID generation) is supplied
through explicit oracle parameters: `rand.Intn n` applied to an oracle
draw `r` is modelled as `r % n`.
-/

/-- Entity: a movable rectangle (player body, bullet, enemy, boss, item). -/
structure Entity where
  id : String
  type : String
  x : ℚ
  y : ℚ
  vx : ℚ
  vy : ℚ
  width : ℤ
  height : ℤ
  health : ℤ
deriving DecidableEq

/-- Player: entity plus name, score, health, color and fire power. -/
structure Player where
  entity : Entity
  name : String
  score : ℤ
  health : ℤ
  color : String
  firePower : ℤ
deriving DecidableEq

/-- GameRoom: one simulation instance.  The Go maps for players, bullets,
enemies and items are modelled as lists; `gameState` is one of
"playing", "gameover", "clear". -/
structure GameRoom where
  id : String
  players : List Player
  bullets : List Entity
  enemies : List Entity
  boss : Option Entity
  items : List Entity
  enemiesDefeated : ℤ
  bossSpawned : Bool
  gameState : String
deriving DecidableEq

/-- `newGameRoom` from the source: empty maps, no boss, zero counters,
state "playing". -/
def newGameRoom (id : String) : GameRoom :=
  { id := id
    players := []
    bullets := []
    enemies := []
    boss := none
    items := []
    enemiesDefeated := 0
    bossSpawned := false
    gameState := "playing" }

/-- `checkCollision` from the source: strict axis-aligned bounding-box
overlap test. -/
def checkCollision (a b : Entity) : Bool :=
  (a.x < b.x + (b.width : ℚ)) && (a.x + (a.width : ℚ) > b.x) &&
    (a.y < b.y + (b.height : ℚ)) && (a.y + (a.height : ℚ) > b.y)

/-- An entity translated horizontally by its own width. -/
def shiftByWidth (a : Entity) : Entity :=
  { a with x := a.x + (a.width : ℚ) }

/-- An entity translated vertically by its own height. -/
def shiftByHeight (a : Entity) : Entity :=
  { a with y := a.y + (a.height : ℚ) }

theorem checkCollision_eq_true_iff (a b : Entity) :
    checkCollision a b = true ↔
      (a.x < b.x + (b.width : ℚ) ∧ a.x + (a.width : ℚ) > b.x ∧
        a.y < b.y + (b.height : ℚ) ∧ a.y + (a.height : ℚ) > b.y) := by
  simp [checkCollision, and_assoc]

/-- Claim C9: `checkCollision` is symmetric, and an entity with positive
width and height never collides with a copy of itself shifted by
(width, 0) or by (0, height): touching edges do not count as overlap,
because the test uses strict inequalities. -/
theorem C9_collision_symm_and_boundary :
    (∀ a b : Entity, checkCollision a b = checkCollision b a) ∧
      (∀ a : Entity, 0 < a.width → 0 < a.height →
        checkCollision a (shiftByWidth a) = false ∧
          checkCollision a (shiftByHeight a) = false) := by
  constructor
  · intro a b
    rw [Bool.eq_iff_iff, checkCollision_eq_true_iff, checkCollision_eq_true_iff]
    constructor
    · rintro ⟨h1, h2, h3, h4⟩
      exact ⟨h2, h1, h4, h3⟩
    · rintro ⟨h1, h2, h3, h4⟩
      exact ⟨h2, h1, h4, h3⟩
  · intro a _ _
    constructor
    · rw [Bool.eq_false_iff, Ne, checkCollision_eq_true_iff]
      rintro ⟨-, h2, -, -⟩
      exact absurd h2 (lt_irrefl _)
    · rw [Bool.eq_false_iff, Ne, checkCollision_eq_true_iff]
      rintro ⟨-, -, -, h4⟩
      exact absurd h4 (lt_irrefl _)

/-- A sample entity used to instantiate theorems with hypotheses. -/
def sampleEntity : Entity :=
  { id := "e0", type := "enemy", x := 100, y := 200, vx := 0, vy := 1,
    width := 30, height := 30, health := 1 }

/-- A second sample entity overlapping `sampleEntity`. -/
def sampleEntityB : Entity :=
  { id := "e1", type := "enemy", x := 110, y := 190, vx := 0, vy := 1,
    width := 30, height := 30, health := 1 }

theorem C9_collision_symm_and_boundary_witness :
    checkCollision sampleEntity sampleEntityB = checkCollision sampleEntityB sampleEntity ∧
      checkCollision sampleEntity (shiftByWidth sampleEntity) = false ∧
        checkCollision sampleEntity (shiftByHeight sampleEntity) = false :=
  ⟨C9_collision_symm_and_boundary.1 sampleEntity sampleEntityB,
    C9_collision_symm_and_boundary.2 sampleEntity (by decide) (by decide)⟩

/-- Lateral offset of the `i`-th bullet of a shot, from the source:
`float64(i-(player.FirePower-1)/2) * 5` (Go integer division truncates
toward zero, i.e. `Int.tdiv`). -/
def bulletOffset (fp : ℤ) (i : ℕ) : ℤ :=
  ((i : ℤ) - (fp - 1).tdiv 2) * 5

/-- The `i`-th bullet spawned by `createBullet` for a player. -/
def shotBullet (ids : ℕ → String) (p : Player) (i : ℕ) : Entity :=
  { id := ids i
    type := "bullet"
    x := p.entity.x + (p.entity.width : ℚ) / 2 - 5 / 2 + (bulletOffset p.firePower i : ℚ)
    y := p.entity.y
    vx := (bulletOffset p.firePower i : ℚ) * (1 / 5)
    vy := -6
    width := 5
    height := 10
    health := 0 }

/-- The list of bullets produced by one shot of a player. -/
def shotOf (ids : ℕ → String) (p : Player) : List Entity :=
  (List.range p.firePower.toNat).map (shotBullet ids p)

/-- `createBullet` from the source: no-op unless the room is playing,
otherwise adds `firePower` fanned-out bullets to the room's bullet map. -/
def createBullet (ids : ℕ → String) (room : GameRoom) (p : Player) : GameRoom :=
  if room.gameState ≠ "playing" then room
  else { room with bullets := room.bullets ++ shotOf ids p }

/-- Horizontal center of an entity's rectangle. -/
def entityCenterX (e : Entity) : ℚ := e.x + (e.width : ℚ) / 2

/-- Horizontal center of a player's rectangle. -/
def playerCenterX (p : Player) : ℚ := p.entity.x + (p.entity.width : ℚ) / 2

/-- Horizontal centers of a list of bullets. -/
def bulletCenters (l : List Entity) : List ℚ := l.map entityCenterX

/-- A finite multiset of abscissas is symmetric about `c` when the mirror
image of every element is again an element. -/
def symmetricAbout (c : ℚ) (xs : List ℚ) : Bool :=
  xs.all fun x => xs.any fun y => y = 2 * c - x

theorem shotBullet_centerX (ids : ℕ → String) (p : Player) (i : ℕ) :
    entityCenterX (shotBullet ids p i) =
      playerCenterX p + (bulletOffset p.firePower i : ℚ) := by
  simp only [entityCenterX, shotBullet, playerCenterX]
  push_cast
  ring

/-- A player with fire power 2, used to refute the all-fire-powers
symmetry claim. -/
def evenFirePlayer : Player :=
  { entity := { id := "p2", type := "player", x := 100, y := 300, vx := 0, vy := 0,
                width := 30, height := 30, health := 100 }
    name := "P2", score := 0, health := 100, color := "#FF0000", firePower := 2 }

/-- A playing room containing only `evenFirePlayer`. -/
def evenFireRoom : GameRoom :=
  { newGameRoom "room-even" with players := [evenFirePlayer] }

/-- A fixed id oracle for concrete computations. -/
def constIds : ℕ → String := fun _ => "bullet-id"

/-- Counterexample to claim C2 as stated: with fire power 2 (reachable
after one item pickup) the shot consists of bullets whose centers sit at
the player's center and 5 units to its right — not symmetric about the
player's horizontal center. -/
theorem C2_counterexample :
    evenFireRoom.gameState = "playing" ∧
      (createBullet constIds evenFireRoom evenFirePlayer).bullets =
        shotOf constIds evenFirePlayer ∧
      symmetricAbout (playerCenterX evenFirePlayer)
        (bulletCenters (shotOf constIds evenFirePlayer)) = false := by
  refine ⟨rfl, ?_, ?_⟩
  · simp [createBullet, evenFireRoom, newGameRoom]
  · have ht : Int.tdiv 1 2 = 0 := by decide
    norm_num [symmetricAbout, shotOf, bulletCenters, entityCenterX, playerCenterX,
      shotBullet, bulletOffset, evenFirePlayer, List.range_succ, ht]
    exact ⟨1, by norm_num, by intro x hx; interval_cases x <;> norm_num⟩

/-- Claim C2, amended: while the room is playing a shot appends exactly
`firePower` bullets to the room's bullet map (and a shot while not
playing creates none); the bullet centers are symmetric about the
player's horizontal center when `firePower` is odd — in particular a
player with fire power 3 gets exactly 3 symmetric bullets. -/
theorem C2_shot_bullet_count_and_symmetry
    (ids : ℕ → String) (room : GameRoom) (p : Player) :
    (room.gameState = "playing" →
      (createBullet ids room p).bullets = room.bullets ++ shotOf ids p ∧
        (0 ≤ p.firePower →
          ((createBullet ids room p).bullets).length =
            room.bullets.length + p.firePower.toNat)) ∧
      (room.gameState ≠ "playing" → createBullet ids room p = room) ∧
      (p.firePower % 2 = 1 →
        symmetricAbout (playerCenterX p) (bulletCenters (shotOf ids p)) = true) := by
  refine ⟨?_, ?_, ?_⟩
  · intro hst
    have hne : ¬ room.gameState ≠ "playing" := by simp [hst]
    constructor
    · simp [createBullet, hne]
    · intro _
      simp [createBullet, hne, shotOf]
  · intro hnp
    simp [createBullet, hnp]
  · intro hodd
    rcases lt_or_le p.firePower 0 with hneg | hpos
    · have h0 : p.firePower.toNat = 0 := Int.toNat_of_nonpos (le_of_lt hneg)
      simp [shotOf, h0, bulletCenters, symmetricAbout]
    · have h1 : 1 ≤ p.firePower := by omega
      set n := p.firePower.toNat with hn
      have hfpn : (n : ℤ) = p.firePower := Int.toNat_of_nonneg hpos
      simp only [symmetricAbout, List.all_eq_true, List.any_eq_true,
        decide_eq_true_eq, bulletCenters, shotOf, List.mem_map, List.mem_range]
      rintro x ⟨b, ⟨i, hi, rfl⟩, rfl⟩
      refine ⟨entityCenterX (shotBullet ids p (n - 1 - i)),
        ⟨shotBullet ids p (n - 1 - i), ⟨n - 1 - i, by omega, rfl⟩, rfl⟩, ?_⟩
      have htd : (p.firePower - 1).tdiv 2 = (p.firePower - 1) / 2 :=
        Int.tdiv_eq_ediv (by omega) (by norm_num)
      have hz : (bulletOffset p.firePower (n - 1 - i) : ℤ) =
          - bulletOffset p.firePower i := by
        unfold bulletOffset
        rw [htd]
        omega
      rw [shotBullet_centerX, shotBullet_centerX, hz]
      push_cast
      ring

/-- A player with fire power 3. -/
def oddFirePlayer : Player :=
  { entity := { id := "p3", type := "player", x := 200, y := 300, vx := 0, vy := 0,
                width := 30, height := 30, health := 100 }
    name := "P3", score := 0, health := 100, color := "#00FF00", firePower := 3 }

/-- A playing room containing only `oddFirePlayer`. -/
def oddFireRoom : GameRoom :=
  { newGameRoom "room-odd" with players := [oddFirePlayer] }

theorem C2_shot_bullet_count_and_symmetry_witness :
    (createBullet constIds oddFireRoom oddFirePlayer).bullets =
        oddFireRoom.bullets ++ shotOf constIds oddFirePlayer ∧
      ((createBullet constIds oddFireRoom oddFirePlayer).bullets).length =
        oddFireRoom.bullets.length + 3 ∧
      symmetricAbout (playerCenterX oddFirePlayer)
        (bulletCenters (shotOf constIds oddFirePlayer)) = true :=
  ⟨((C2_shot_bullet_count_and_symmetry constIds oddFireRoom oddFirePlayer).1 (by decide)).1,
    ((C2_shot_bullet_count_and_symmetry constIds oddFireRoom oddFirePlayer).1 (by decide)).2
      (by decide),
    (C2_shot_bullet_count_and_symmetry constIds oddFireRoom oddFirePlayer).2.2 (by decide)⟩

/-- Working state threaded through the phases of one `updateGame` tick.
`nextId` counts fresh-id draws for entities created during the tick. -/
structure TickState where
  players : List Player
  bullets : List Entity
  enemies : List Entity
  boss : Option Entity
  items : List Entity
  enemiesDefeated : ℤ
  gameState : String
  nextId : ℕ
deriving DecidableEq

/-- One player movement step: integrate velocity and clamp to the
playfield, mirroring the four `if` statements of the source. -/
def movePlayer (p : Player) : Player :=
  let x0 := p.entity.x + p.entity.vx
  let x1 := if x0 < 0 then 0 else x0
  let x2 := if x1 > 770 then 770 else x1
  let y0 := p.entity.y + p.entity.vy
  let y1 := if y0 < 0 then 0 else y0
  let y2 := if y1 > 570 then 570 else y1
  { p with entity := { p.entity with x := x2, y := y2 } }

/-- An entity advanced by its own velocity. -/
def moveEnt (e : Entity) : Entity :=
  { e with x := e.x + e.vx, y := e.y + e.vy }

/-- The out-of-playfield test applied to bullets after they move. -/
def outsideField (b : Entity) : Bool :=
  (b.y < 0) || (b.y > 600) || (b.x < 0) || (b.x > 800)

/-- The enemy bullet emitted by an enemy, from the source: spawned at the
enemy's bottom center, falling straight down. -/
def enemyBulletOf (id : String) (e : Entity) : Entity :=
  { id := id, type := "enemyBullet", x := e.x + (e.width : ℚ) / 2,
    y := e.y + (e.height : ℚ), vx := 0, vy := 3, width := 5, height := 5, health := 0 }

/-- The item dropped at a defeated enemy's position. -/
def itemOf (id : String) (e : Entity) : Entity :=
  { id := id, type := "item", x := e.x, y := e.y, vx := 0, vy := 1,
    width := 15, height := 15, health := 0 }

/-- True while some player still has positive health (the negation of the
source's `allPlayersDead` scan). -/
def anyAlive (ps : List Player) : Bool :=
  ps.any fun q => q.health > 0

/-- Hostile-projectile loop over the player map: damage the first
overlapping player by 15 with health floored at 0; `none` when no player
overlaps. -/
def hostileHit (b : Entity) : List Player → Option (List Player)
  | [] => none
  | p :: ps =>
    if checkCollision b p.entity then
      let h := p.health - 15
      some ({ p with health := if h < 0 then 0 else h } :: ps)
    else (hostileHit b ps).map fun l => p :: l

/-- Friendly-bullet loop over the enemy map: remove the first overlapping
enemy, returning the remaining enemies and the removed one. -/
def shootEnemies (b : Entity) : List Entity → Option (List Entity × Entity)
  | [] => none
  | e :: es =>
    if checkCollision b e then some (es, e)
    else (shootEnemies b es).map fun r => (e :: r.1, r.2)

/-- Score-attribution loop: +10 to the first player whose position equals
the bullet's position, if any. -/
def creditShooter (b : Entity) : List Player → List Player
  | [] => []
  | p :: ps =>
    if p.entity.x = b.x ∧ p.entity.y = b.y then { p with score := p.score + 10 } :: ps
    else p :: creditShooter b ps

/-- Resolution of a friendly bullet against the enemy map: on first
overlap remove bullet and enemy, bump the defeat counter, drop an item at
the enemy's position and credit the shooter; otherwise keep the bullet. -/
def friendlyVsEnemies (ids : ℕ → String) (st : TickState) (b : Entity) : TickState :=
  match shootEnemies b st.enemies with
  | some r =>
      { st with
        enemies := r.1
        enemiesDefeated := st.enemiesDefeated + 1
        items := st.items ++ [itemOf (ids st.nextId) r.2]
        players := creditShooter b st.players
        nextId := st.nextId + 1 }
  | none => { st with bullets := st.bullets ++ [b] }

/-- Per-projectile step of the bullet pass, mirroring the source: move,
drop when out of bounds, hostile bullets test players, friendly bullets
test boss then enemies, any other type just moves. -/
def processBullet (ids : ℕ → String) (st : TickState) (b0 : Entity) : TickState :=
  let b := moveEnt b0
  if outsideField b then st
  else if b.type = "enemyBullet" ∨ b.type = "bossBullet" then
    match hostileHit b st.players with
    | some ps =>
        { st with players := ps
                  gameState := if anyAlive ps then st.gameState else "gameover" }
    | none => { st with bullets := st.bullets ++ [b] }
  else if b.type = "bullet" then
    match st.boss with
    | some bo =>
        if checkCollision b bo then
          let bo2 : Entity := { bo with health := bo.health - 1 }
          if bo2.health ≤ 0 then
            { st with
              boss := none
              gameState := "clear"
              players := st.players.map fun p => { p with score := p.score + 500 } }
          else { st with boss := some bo2 }
        else friendlyVsEnemies ids st b
    | none => friendlyVsEnemies ids st b
  else { st with bullets := st.bullets ++ [b] }

/-- Item fall-and-pickup loop over the player map: the first overlapping
player gains one fire power and consumes the item. -/
def itemPickup (it : Entity) : List Player → Option (List Player)
  | [] => none
  | p :: ps =>
    if checkCollision it p.entity then some ({ p with firePower := p.firePower + 1 } :: ps)
    else (itemPickup it ps).map fun l => p :: l

/-- Per-item step: fall, discard past the bottom edge, otherwise first
overlapping player picks it up. -/
def processItem (st : TickState) (it0 : Entity) : TickState :=
  let it : Entity := { it0 with y := it0.y + it0.vy }
  if it.y > 600 then st
  else
    match itemPickup it st.players with
    | some ps => { st with players := ps }
    | none => { st with items := st.items ++ [it] }

/-- Enemy-body loop over the player map: the first overlapping player
takes 10 damage; when their health reaches 0 the all-dead scan runs.
Returns the updated players and whether the floor branch was taken. -/
def enemyHitPlayers (e : Entity) : List Player → Option (List Player × Bool)
  | [] => none
  | p :: ps =>
    if checkCollision e p.entity then
      let h := p.health - 10
      if h ≤ 0 then some ({ p with health := 0 } :: ps, true)
      else some ({ p with health := h } :: ps, false)
    else (enemyHitPlayers e ps).map fun r => (p :: r.1, r.2)

/-- Per-enemy step: move, discard past the bottom edge, otherwise damage
the first overlapping player (removing the enemy) and evaluate the
all-players-dead condition when that player just died. -/
def processEnemy (st : TickState) (e0 : Entity) : TickState :=
  let e := moveEnt e0
  if e.y > 600 then st
  else
    match enemyHitPlayers e st.players with
    | some r =>
        { st with
          players := r.1
          gameState := if r.2 && !(anyAlive r.1) then "gameover" else st.gameState }
    | none => { st with enemies := st.enemies ++ [e] }

/-- Oracle for the boss's random behaviour inside one tick. -/
structure BossRand where
  fires : Bool
  bulletId : String
  rvx : ℕ
  rvy : ℕ

/-- Oracle for one tick of `updateGame`: which enemies fire, fresh ids
for enemy bullets and items, and the boss's draws. -/
structure TickRand where
  enemyFires : ℕ → Bool
  enemyBulletIds : ℕ → String
  itemIds : ℕ → String
  boss : BossRand

/-- Boss horizontal patrol step: advance and reflect at the playfield
edges. -/
def bossMove (b : Entity) : Entity :=
  let b1 : Entity := { b with x := b.x + b.vx }
  if b1.x ≤ 0 ∨ b1.x + (b1.width : ℚ) ≥ 800 then { b1 with vx := -b1.vx } else b1

/-- The bullet the boss emits, from the source: bottom center of the
boss, randomized horizontal drift `Intn 5 - 2`, downward speed
`Intn 3 + 2`. -/
def bossBulletOf (br : BossRand) (b : Entity) : Entity :=
  { id := br.bulletId, type := "bossBullet", x := b.x + (b.width : ℚ) / 2,
    y := b.y + (b.height : ℚ), vx := ((br.rvx % 5 : ℕ) : ℚ) - 2,
    vy := ((br.rvy % 3 : ℕ) : ℚ) + 2, width := 10, height := 10, health := 0 }

/-- Boss-body collision loop: every overlapping player takes 20 damage
(no break in the source); the all-dead scan runs over the partially
updated player map whenever a player's health reaches 0. -/
def bossPlayersGo (b : Entity) (acc : List Player) (gs : String) :
    List Player → List Player × String
  | [] => (acc, gs)
  | p :: ps =>
    if checkCollision b p.entity then
      let h := p.health - 20
      if h ≤ 0 then
        let p2 : Player := { p with health := 0 }
        let gs2 := if anyAlive (acc ++ p2 :: ps) then gs else "gameover"
        bossPlayersGo b (acc ++ [p2]) gs2 ps
      else bossPlayersGo b (acc ++ [{ p with health := h }]) gs ps
    else bossPlayersGo b (acc ++ [p]) gs ps

/-- Boss phase of a tick: patrol movement with edge reflection, random
`bossBullet` emission into the shared bullet map, then body collisions
with every player. -/
def bossPhase (br : BossRand) (st : TickState) : TickState :=
  match st.boss with
  | none => st
  | some b0 =>
    let b := bossMove b0
    let st1 : TickState := { st with boss := some b }
    let st2 : TickState :=
      if br.fires then { st1 with bullets := st1.bullets ++ [bossBulletOf br b] } else st1
    let r := bossPlayersGo b [] st2.gameState st2.players
    { st2 with players := r.1, gameState := r.2 }

/-- Enemy random-fire phase: each enemy may emit an `enemyBullet` into
the shared bullet map before the bullet pass runs. -/
def enemyFirePhase (R : TickRand) (st : TickState) : TickState :=
  { st with
    bullets := st.bullets ++ (st.enemies.enum.filterMap fun ke =>
      if R.enemyFires ke.1 then some (enemyBulletOf (R.enemyBulletIds ke.1) ke.2) else none) }

/-- Bullet pass: fold the per-projectile step over the bullet map,
accumulating survivors. -/
def bulletPhase (R : TickRand) (st : TickState) : TickState :=
  st.bullets.foldl (processBullet R.itemIds) { st with bullets := [] }

/-- Item pass. -/
def itemPhase (st : TickState) : TickState :=
  st.items.foldl processItem { st with items := [] }

/-- Enemy pass. -/
def enemyPhase (st : TickState) : TickState :=
  st.enemies.foldl processEnemy { st with enemies := [] }

/-- View of a room as a tick state. -/
def toTick (room : GameRoom) : TickState :=
  { players := room.players, bullets := room.bullets, enemies := room.enemies,
    boss := room.boss, items := room.items, enemiesDefeated := room.enemiesDefeated,
    gameState := room.gameState, nextId := 0 }

/-- Writing the tick state back into the room (`bossSpawned` and the room
id are untouched by `updateGame`). -/
def ofTick (room : GameRoom) (st : TickState) : GameRoom :=
  { room with
    players := st.players, bullets := st.bullets, enemies := st.enemies,
    boss := st.boss, items := st.items, enemiesDefeated := st.enemiesDefeated,
    gameState := st.gameState }

/-- `updateGame` from the source: a no-op unless playing, otherwise the
six phases in source order — player movement, enemy random fire, bullet
pass, item pass, enemy pass, boss phase. -/
def updateGame (R : TickRand) (room : GameRoom) : GameRoom :=
  if room.gameState ≠ "playing" then room
  else
    ofTick room
      (bossPhase R.boss
        (enemyPhase
          (itemPhase
            (bulletPhase R
              (enemyFirePhase R
                { toTick room with players := room.players.map movePlayer })))))

/-- Oracle for the spawner cadence: id and draws for a spawned enemy or
the boss id. -/
structure SpawnRand where
  enemyId : String
  bossId : String
  rx : ℕ
  rvx : ℕ
  rvy : ℕ

/-- The enemy created by `createEnemy`: random top-edge position, slow
randomized drift. -/
def enemyOf (S : SpawnRand) : Entity :=
  { id := S.enemyId, type := "enemy", x := ((S.rx % 600 : ℕ) : ℚ), y := 0,
    vx := ((S.rvx % 3 : ℕ) : ℚ) - 1, vy := ((S.rvy % 2 : ℕ) : ℚ) + 1,
    width := 30, height := 30, health := 1 }

/-- `createEnemy` from the source: only while playing and before the boss
has spawned. -/
def createEnemy (S : SpawnRand) (room : GameRoom) : GameRoom :=
  if room.gameState ≠ "playing" ∨ room.bossSpawned then room
  else { room with enemies := room.enemies ++ [enemyOf S] }

/-- The boss entity created by `createBoss`. -/
def bossEntity (id : String) : Entity :=
  { id := id, type := "boss", x := 350, y := 50, vx := 2, vy := 0,
    width := 100, height := 80, health := 100 }

/-- `createBoss` from the source: installs the boss and sets the
`bossSpawned` flag. -/
def createBoss (id : String) (room : GameRoom) : GameRoom :=
  { room with boss := some (bossEntity id), bossSpawned := true }

/-- The spawn-cadence branch of `gameLoop`: while playing, spawn the boss
once 20 enemies are defeated and it has not yet spawned, otherwise try to
spawn an ordinary enemy. -/
def spawnTick (S : SpawnRand) (room : GameRoom) : GameRoom :=
  if room.gameState = "playing" then
    if 20 ≤ room.enemiesDefeated ∧ room.bossSpawned = false then createBoss S.bossId room
    else createEnemy S room
  else room

/-- Oracle for a joining session: client id and spawn draws. -/
structure JoinRand where
  id : String
  rx : ℕ
  ry : ℕ
  rc : ℕ

/-- The color palette from `handleWebSocket`. -/
def playerColors : List String :=
  ["#FF0000", "#00FF00", "#0000FF", "#FFFF00", "#FF00FF"]

/-- The player record `handleWebSocket` builds for a new connection. -/
def newPlayer (J : JoinRand) : Player :=
  { entity := { id := J.id, type := "player", x := ((300 + J.rx % 300 : ℕ) : ℚ),
                y := ((300 + J.ry % 300 : ℕ) : ℚ), vx := 0, vy := 0,
                width := 30, height := 30, health := 100 }
    name := "Player-" ++ J.id.take 5
    score := 0
    health := 100
    color := playerColors.getD (J.rc % 5) ""
    firePower := 1 }

/-- The `move` input handler: overwrite the player's commanded velocity. -/
def applyMove (pid : String) (vx vy : ℚ) (room : GameRoom) : GameRoom :=
  { room with
    players := room.players.map fun p =>
      if p.entity.id = pid then { p with entity := { p.entity with vx := vx, vy := vy } }
      else p }

/-- The `shoot` input handler: fire for the named player, if present. -/
def applyShoot (ids : ℕ → String) (pid : String) (room : GameRoom) : GameRoom :=
  match room.players.find? fun p => p.entity.id = pid with
  | some p => createBullet ids room p
  | none => room

/-- The `restart` input handler from the source: only effective in a
terminal state; resets the room and every player (fresh random spawn
point per player). -/
def applyRestart (rx ry : ℕ → ℕ) (room : GameRoom) : GameRoom :=
  if room.gameState = "gameover" ∨ room.gameState = "clear" then
    { room with
      gameState := "playing"
      enemiesDefeated := 0
      bossSpawned := false
      boss := none
      enemies := []
      bullets := []
      players := room.players.enum.map fun kp =>
        { kp.2 with
          health := 100
          score := 0
          entity := { kp.2.entity with
            x := ((300 + rx kp.1 % 300 : ℕ) : ℚ)
            y := ((300 + ry kp.1 % 300 : ℕ) : ℚ) } } }
  else room

/-- A player joining the room (performed by `handleWebSocket` after
matchmaking). -/
def applyJoin (J : JoinRand) (room : GameRoom) : GameRoom :=
  { room with players := room.players ++ [newPlayer J] }

/-- A session disconnecting: its player is removed from the room. -/
def applyLeave (pid : String) (room : GameRoom) : GameRoom :=
  { room with players := room.players.filter fun p => p.entity.id ≠ pid }

/-- Every event that can affect one room after creation: a physics tick,
a spawn-cadence tick, and the session inputs. -/
inductive Input where
  | tick : TickRand → Input
  | spawn : SpawnRand → Input
  | move : String → ℚ → ℚ → Input
  | shoot : String → (ℕ → String) → Input
  | restart : (ℕ → ℕ) → (ℕ → ℕ) → Input
  | join : JoinRand → Input
  | leave : String → Input

/-- Whether an input is an explicit restart request. -/
def isRestart : Input → Bool
  | .restart _ _ => true
  | _ => false

/-- One step of a room's evolution. -/
def step (room : GameRoom) : Input → GameRoom
  | .tick R => updateGame R room
  | .spawn S => spawnTick S room
  | .move pid vx vy => applyMove pid vx vy room
  | .shoot pid ids => applyShoot ids pid room
  | .restart rx ry => applyRestart rx ry room
  | .join J => applyJoin J room
  | .leave pid => applyLeave pid room

/-- A room evolving under a sequence of events. -/
def run (room : GameRoom) (l : List Input) : GameRoom :=
  l.foldl step room

/-- Index of the first player overlapping a projectile, in iteration
order. -/
def firstHitIdx (b : Entity) : List Player → Option ℕ
  | [] => none
  | p :: ps =>
    if checkCollision b p.entity then some 0 else (firstHitIdx b ps).map (· + 1)

/-- A player after taking the fixed hostile-projectile damage of 15,
health floored at 0. -/
def damagedBy15 (p : Player) : Player :=
  { p with health := if p.health - 15 < 0 then 0 else p.health - 15 }

theorem hostileHit_spec (b : Entity) (ps : List Player)
    (h : ∃ p ∈ ps, checkCollision b p.entity = true) :
    ∃ i p, firstHitIdx b ps = some i ∧ ps[i]? = some p ∧
      hostileHit b ps = some (ps.set i (damagedBy15 p)) := by
  induction ps with
  | nil => simp at h
  | cons q qs ih =>
    cases hc : checkCollision b q.entity with
    | true =>
        exact ⟨0, q, by simp [firstHitIdx, hc], by simp,
          by simp [hostileHit, hc, damagedBy15]⟩
    | false =>
        have h' : ∃ p ∈ qs, checkCollision b p.entity = true := by
          rcases h with ⟨p, hp, hcp⟩
          rcases List.mem_cons.1 hp with rfl | hmem
          · rw [hc] at hcp; exact absurd hcp (by simp)
          · exact ⟨p, hmem, hcp⟩
        obtain ⟨i, p, hf, hg, hh⟩ := ih h'
        exact ⟨i + 1, p, by simp [firstHitIdx, hc, hf], by simpa using hg,
          by simp [hostileHit, hc, hh]⟩

/-- Claim C1: during the bullet pass, a hostile projectile
(`enemyBullet`/`bossBullet`) that stays in bounds and overlaps some
player is removed, deals fixed damage 15 to the first overlapping player
with health floored at 0, re-evaluates the all-players-dead condition
(moving the room to "gameover" when it holds), and checks no further
players: all other room components are untouched. -/
theorem C1_hostile_projectile_resolution (ids : ℕ → String) (st : TickState) (b0 : Entity)
    (hty : (moveEnt b0).type = "enemyBullet" ∨ (moveEnt b0).type = "bossBullet")
    (hin : outsideField (moveEnt b0) = false)
    (hover : ∃ p ∈ st.players, checkCollision (moveEnt b0) p.entity = true) :
    ∃ i p, firstHitIdx (moveEnt b0) st.players = some i ∧ st.players[i]? = some p ∧
      processBullet ids st b0 =
        { st with
          players := st.players.set i (damagedBy15 p)
          gameState :=
            if anyAlive (st.players.set i (damagedBy15 p)) then st.gameState
            else "gameover" } := by
  obtain ⟨i, p, hf, hg, hh⟩ := hostileHit_spec (moveEnt b0) st.players hover
  refine ⟨i, p, hf, hg, ?_⟩
  unfold processBullet
  simp only [hin, Bool.false_eq_true, if_false, if_pos hty, hh]

/-- The player used in concrete resolution scenarios. -/
def victimPlayer : Player :=
  { entity := { id := "v", type := "player", x := 100, y := 300, vx := 0, vy := 0,
                width := 30, height := 30, health := 100 }
    name := "V", score := 0, health := 100, color := "#0000FF", firePower := 1 }

/-- A hostile bullet that will overlap `victimPlayer` after moving. -/
def hostileBullet : Entity :=
  { id := "hb", type := "enemyBullet", x := 110, y := 299, vx := 0, vy := 3,
    width := 5, height := 5, health := 0 }

/-- A tick state containing only `victimPlayer`. -/
def victimState : TickState :=
  { players := [victimPlayer], bullets := [], enemies := [], boss := none,
    items := [], enemiesDefeated := 0, gameState := "playing", nextId := 0 }

theorem C1_hostile_projectile_resolution_witness :
    ∃ i p, firstHitIdx (moveEnt hostileBullet) victimState.players = some i ∧
      victimState.players[i]? = some p ∧
      processBullet constIds victimState hostileBullet =
        { victimState with
          players := victimState.players.set i (damagedBy15 p)
          gameState :=
            if anyAlive (victimState.players.set i (damagedBy15 p)) then
              victimState.gameState
            else "gameover" } :=
  C1_hostile_projectile_resolution constIds victimState hostileBullet
    (Or.inl rfl)
    (by norm_num [outsideField, moveEnt, hostileBullet])
    ⟨victimPlayer, by simp [victimState],
      by norm_num [checkCollision, moveEnt, hostileBullet, victimPlayer]⟩

/-- Index of the first enemy overlapping a projectile, in iteration
order. -/
def firstEnemyIdx (b : Entity) : List Entity → Option ℕ
  | [] => none
  | e :: es =>
    if checkCollision b e then some 0 else (firstEnemyIdx b es).map (· + 1)

/-- Index of the first player whose position equals the projectile's
position (the source's score-attribution test). -/
def firstPosIdx (b : Entity) : List Player → Option ℕ
  | [] => none
  | p :: ps =>
    if p.entity.x = b.x ∧ p.entity.y = b.y then some 0
    else (firstPosIdx b ps).map (· + 1)

theorem shootEnemies_spec (b : Entity) (es : List Entity)
    (h : ∃ e ∈ es, checkCollision b e = true) :
    ∃ i e, firstEnemyIdx b es = some i ∧ es[i]? = some e ∧
      shootEnemies b es = some (es.eraseIdx i, e) := by
  induction es with
  | nil => simp at h
  | cons q qs ih =>
    cases hc : checkCollision b q with
    | true =>
        exact ⟨0, q, by simp [firstEnemyIdx, hc], by simp,
          by simp [shootEnemies, hc]⟩
    | false =>
        have h' : ∃ e ∈ qs, checkCollision b e = true := by
          rcases h with ⟨e, he, hce⟩
          rcases List.mem_cons.1 he with rfl | hmem
          · rw [hc] at hce; exact absurd hce (by simp)
          · exact ⟨e, hmem, hce⟩
        obtain ⟨i, e, hf, hg, hh⟩ := ih h'
        exact ⟨i + 1, e, by simp [firstEnemyIdx, hc, hf], by simpa using hg,
          by simp [shootEnemies, hc, hh]⟩

theorem creditShooter_of_none (b : Entity) (ps : List Player)
    (h : firstPosIdx b ps = none) : creditShooter b ps = ps := by
  induction ps with
  | nil => simp [creditShooter]
  | cons q qs ih =>
    by_cases hc : q.entity.x = b.x ∧ q.entity.y = b.y
    · simp [firstPosIdx, hc] at h
    · simp only [firstPosIdx, if_neg hc, Option.map_eq_none'] at h
      simp [creditShooter, hc, ih h]

theorem creditShooter_of_some (b : Entity) (ps : List Player) (j : ℕ) (p : Player)
    (h1 : firstPosIdx b ps = some j) (h2 : ps[j]? = some p) :
    creditShooter b ps = ps.set j { p with score := p.score + 10 } := by
  induction ps generalizing j with
  | nil => simp [firstPosIdx] at h1
  | cons q qs ih =>
    by_cases hc : q.entity.x = b.x ∧ q.entity.y = b.y
    · simp only [firstPosIdx, if_pos hc, Option.some.injEq] at h1
      subst h1
      simp only [List.getElem?_cons_zero, Option.some.injEq] at h2
      subst h2
      simp [creditShooter, hc]
    · simp only [firstPosIdx, if_neg hc, Option.map_eq_some'] at h1
      obtain ⟨j0, hj0, rfl⟩ := h1
      simp only [List.getElem?_cons_succ] at h2
      simp [creditShooter, hc, ih j0 hj0 h2]

/-- Claim C3: when a friendly bullet (that stays in bounds and misses the
boss) first overlaps an enemy, the bullet and that enemy are removed,
`enemiesDefeated` is incremented by one, a falling item spawns at the
enemy's position, and +10 points go to the first player (if any) whose
current position exactly equals the bullet's current position; boss and
game state are untouched. -/
theorem C3_friendly_bullet_vs_enemy (ids : ℕ → String) (st : TickState) (b0 : Entity)
    (hty : (moveEnt b0).type = "bullet")
    (hin : outsideField (moveEnt b0) = false)
    (hboss : ∀ bo, st.boss = some bo → checkCollision (moveEnt b0) bo = false)
    (hover : ∃ e ∈ st.enemies, checkCollision (moveEnt b0) e = true) :
    ∃ i e, firstEnemyIdx (moveEnt b0) st.enemies = some i ∧ st.enemies[i]? = some e ∧
      processBullet ids st b0 =
        { st with
          enemies := st.enemies.eraseIdx i
          enemiesDefeated := st.enemiesDefeated + 1
          items := st.items ++ [itemOf (ids st.nextId) e]
          players := creditShooter (moveEnt b0) st.players
          nextId := st.nextId + 1 } ∧
      (firstPosIdx (moveEnt b0) st.players = none →
        creditShooter (moveEnt b0) st.players = st.players) ∧
      (∀ j p, firstPosIdx (moveEnt b0) st.players = some j → st.players[j]? = some p →
        creditShooter (moveEnt b0) st.players =
          st.players.set j { p with score := p.score + 10 }) := by
  obtain ⟨i, e, hf, hg, hh⟩ := shootEnemies_spec (moveEnt b0) st.enemies hover
  refine ⟨i, e, hf, hg, ?_, creditShooter_of_none (moveEnt b0) st.players,
    fun j p h1 h2 => creditShooter_of_some (moveEnt b0) st.players j p h1 h2⟩
  have hnh : ¬ ((moveEnt b0).type = "enemyBullet" ∨ (moveEnt b0).type = "bossBullet") := by
    simp [hty]
  unfold processBullet
  simp only [hin, Bool.false_eq_true, if_false, if_neg hnh, if_pos hty]
  cases hb : st.boss with
  | none => simp [friendlyVsEnemies, hh, hb]
  | some bo =>
      have hcb := hboss bo hb
      simp [hcb, friendlyVsEnemies, hh, hb]

/-- A player standing exactly at the post-move position of
`strikeBullet`, so the attribution heuristic credits them. -/
def shooterPlayer : Player :=
  { entity := { id := "s", type := "player", x := 105, y := 300, vx := 0, vy := 0,
                width := 30, height := 30, health := 100 }
    name := "S", score := 0, health := 100, color := "#FFFF00", firePower := 1 }

/-- A friendly bullet about to hit `targetEnemy`. -/
def strikeBullet : Entity :=
  { id := "sb", type := "bullet", x := 105, y := 306, vx := 0, vy := -6,
    width := 5, height := 10, health := 0 }

/-- The enemy hit by `strikeBullet`. -/
def targetEnemy : Entity :=
  { id := "te", type := "enemy", x := 100, y := 290, vx := 0, vy := 1,
    width := 30, height := 30, health := 1 }

/-- A tick state with one player and one enemy and no boss. -/
def strikeState : TickState :=
  { players := [shooterPlayer], bullets := [], enemies := [targetEnemy], boss := none,
    items := [], enemiesDefeated := 0, gameState := "playing", nextId := 0 }

theorem C3_friendly_bullet_vs_enemy_witness :
    ∃ i e, firstEnemyIdx (moveEnt strikeBullet) strikeState.enemies = some i ∧
      strikeState.enemies[i]? = some e ∧
      processBullet constIds strikeState strikeBullet =
        { strikeState with
          enemies := strikeState.enemies.eraseIdx i
          enemiesDefeated := strikeState.enemiesDefeated + 1
          items := strikeState.items ++ [itemOf (constIds strikeState.nextId) e]
          players := creditShooter (moveEnt strikeBullet) strikeState.players
          nextId := strikeState.nextId + 1 } ∧
      (firstPosIdx (moveEnt strikeBullet) strikeState.players = none →
        creditShooter (moveEnt strikeBullet) strikeState.players = strikeState.players) ∧
      (∀ j p, firstPosIdx (moveEnt strikeBullet) strikeState.players = some j →
        strikeState.players[j]? = some p →
        creditShooter (moveEnt strikeBullet) strikeState.players =
          strikeState.players.set j { p with score := p.score + 10 }) :=
  C3_friendly_bullet_vs_enemy constIds strikeState strikeBullet
    rfl
    (by norm_num [outsideField, moveEnt, strikeBullet])
    (by intro bo hbo; simp [strikeState] at hbo)
    ⟨targetEnemy, by simp [strikeState],
      by norm_num [checkCollision, moveEnt, strikeBullet, targetEnemy]⟩

theorem processBullet_friendly_hits_boss (ids : ℕ → String) (st : TickState)
    (b0 bo : Entity)
    (hty : (moveEnt b0).type = "bullet")
    (hin : outsideField (moveEnt b0) = false)
    (hboss : st.boss = some bo)
    (hc : checkCollision (moveEnt b0) bo = true) :
    processBullet ids st b0 =
      if bo.health - 1 ≤ 0 then
        { st with boss := none, gameState := "clear",
                  players := st.players.map fun p => { p with score := p.score + 500 } }
      else { st with boss := some { bo with health := bo.health - 1 } } := by
  have hnh : ¬ ((moveEnt b0).type = "enemyBullet" ∨ (moveEnt b0).type = "bossBullet") := by
    simp [hty]
  unfold processBullet
  simp only [hin, Bool.false_eq_true, if_false, if_neg hnh, if_pos hty, hboss, hc, if_true]

/-- A stationary friendly bullet sitting inside the boss's rectangle. -/
def bossStrikeBullet : Entity :=
  { id := "bsb", type := "bullet", x := 400, y := 60, vx := 0, vy := 0,
    width := 5, height := 10, health := 0 }

/-- The boss-fight scenario state: one player, a fresh boss with
health 100. -/
def bossScenarioState : TickState :=
  { players := [shooterPlayer], bullets := [], enemies := [],
    boss := some (bossEntity "B"), items := [], enemiesDefeated := 0,
    gameState := "playing", nextId := 0 }

/-- One injected successful friendly-bullet-vs-boss overlap. -/
def hitBoss (st : TickState) : TickState :=
  processBullet constIds st bossStrikeBullet

theorem moveEnt_bossStrikeBullet : moveEnt bossStrikeBullet = bossStrikeBullet := by
  simp [moveEnt, bossStrikeBullet]

theorem bossStrikeBullet_inField : outsideField (moveEnt bossStrikeBullet) = false := by
  norm_num [outsideField, moveEnt, bossStrikeBullet]

theorem bossStrikeBullet_hits (h : ℤ) :
    checkCollision (moveEnt bossStrikeBullet) { bossEntity "B" with health := h } = true := by
  norm_num [checkCollision, moveEnt, bossStrikeBullet, bossEntity]

theorem hitBoss_iter (n : ℕ) (hn : n ≤ 99) :
    hitBoss^[n] bossScenarioState =
      { bossScenarioState with
        boss := some { bossEntity "B" with health := 100 - (n : ℤ) } } := by
  induction n with
  | zero =>
      norm_num
      rfl
  | succ k ih =>
      have hk : k ≤ 99 := by omega
      rw [Function.iterate_succ_apply', ih hk, hitBoss,
        processBullet_friendly_hits_boss constIds _ bossStrikeBullet
          { bossEntity "B" with health := 100 - (k : ℤ) } rfl
          bossStrikeBullet_inField rfl (bossStrikeBullet_hits _)]
      have hne : ¬ ((100 - (k : ℤ)) - 1 ≤ 0) := by omega
      rw [if_neg hne]
      have heq : (100 - (k : ℤ)) - 1 = 100 - ((k : ℕ) + 1 : ℤ) := by ring
      simp only [heq]
      rfl

/-- Claim C6: a friendly bullet overlapping the boss is removed and deals
1 damage; when the boss's health thereby drops to 0 or below, the room
transitions to "clear", the boss is removed and every current player's
score increases by exactly 500 — and 100 successful friendly-bullet hits
on a fresh boss with health 100 produce exactly this outcome. -/
theorem C6_boss_damage_and_clear :
    (∀ (ids : ℕ → String) (st : TickState) (b0 bo : Entity),
      (moveEnt b0).type = "bullet" → outsideField (moveEnt b0) = false →
      st.boss = some bo → checkCollision (moveEnt b0) bo = true →
      processBullet ids st b0 =
        if bo.health - 1 ≤ 0 then
          { st with boss := none, gameState := "clear",
                    players := st.players.map fun p => { p with score := p.score + 500 } }
        else { st with boss := some { bo with health := bo.health - 1 } }) ∧
      hitBoss^[100] bossScenarioState =
        { bossScenarioState with
          boss := none
          gameState := "clear"
          players := bossScenarioState.players.map fun p =>
            { p with score := p.score + 500 } } := by
  refine ⟨fun ids st b0 bo hty hin hboss hc =>
    processBullet_friendly_hits_boss ids st b0 bo hty hin hboss hc, ?_⟩
  have h100 : (100 : ℕ) = 99 + 1 := rfl
  rw [h100, Function.iterate_succ_apply', hitBoss_iter 99 (le_refl 99), hitBoss,
    processBullet_friendly_hits_boss constIds _ bossStrikeBullet
      { bossEntity "B" with health := 100 - (99 : ℕ) } rfl
      bossStrikeBullet_inField rfl (bossStrikeBullet_hits _)]
  norm_num

theorem C6_boss_damage_and_clear_witness :
    processBullet constIds bossScenarioState bossStrikeBullet =
      if (bossEntity "B").health - 1 ≤ 0 then
        { bossScenarioState with
          boss := none
          gameState := "clear"
          players := bossScenarioState.players.map fun p =>
            { p with score := p.score + 500 } }
      else
        { bossScenarioState with
          boss := some { bossEntity "B" with health := (bossEntity "B").health - 1 } } :=
  C6_boss_damage_and_clear.1 constIds bossScenarioState bossStrikeBullet (bossEntity "B")
    rfl bossStrikeBullet_inField rfl
    (by norm_num [checkCollision, moveEnt, bossStrikeBullet, bossEntity])

/-- A boss bullet that will overlap `targetEnemy` after moving. -/
def strayBossBullet : Entity :=
  { id := "bb", type := "bossBullet", x := 110, y := 295, vx := 0, vy := 3,
    width := 10, height := 10, health := 0 }

/-- A tick state with one enemy, no players. -/
def strayState : TickState :=
  { players := [], bullets := [], enemies := [targetEnemy], boss := none,
    items := [], enemiesDefeated := 0, gameState := "playing", nextId := 0 }

/-- Counterexample to claim C10 as stated: a `bossBullet` overlapping a
surviving enemy does not remove the enemy and does not increment
`enemiesDefeated` — the hostile branch of the pass only tests players and
then skips the enemy tests, so the projectile simply survives. -/
theorem C10_counterexample :
    checkCollision (moveEnt strayBossBullet) targetEnemy = true ∧
      (processBullet constIds strayState strayBossBullet).enemies = [targetEnemy] ∧
      (processBullet constIds strayState strayBossBullet).enemiesDefeated = 0 ∧
      (processBullet constIds strayState strayBossBullet).bullets =
        [moveEnt strayBossBullet] := by
  have hin : outsideField (moveEnt strayBossBullet) = false := by
    norm_num [outsideField, moveEnt, strayBossBullet]
  have hc : checkCollision (moveEnt strayBossBullet) targetEnemy = true := by
    norm_num [checkCollision, moveEnt, strayBossBullet, targetEnemy]
  have hres : processBullet constIds strayState strayBossBullet =
      { strayState with bullets := strayState.bullets ++ [moveEnt strayBossBullet] } := by
    unfold processBullet
    simp only [hin, Bool.false_eq_true, if_false]
    rw [if_pos (show (moveEnt strayBossBullet).type = "enemyBullet" ∨
      (moveEnt strayBossBullet).type = "bossBullet" from Or.inr rfl)]
    simp [hostileHit, strayState]
  refine ⟨hc, ?_, ?_, ?_⟩ <;> (rw [hres]; simp [strayState])

/-- Claim C10, amended: boss bullets do land in the same bullet map as
player bullets (the boss phase appends them there) and the same
resolution pass processes them, but the pass dispatches on the type
string: a `bossBullet` is only tested against players, so in-bounds boss
bullets that hit no player survive the pass and leave enemies and
`enemiesDefeated` (and everything else) unchanged even when they overlap
an enemy. -/
theorem C10_bossBullet_same_map_player_only (br : BossRand) (ids : ℕ → String)
    (st st2 : TickState) (b bz : Entity)
    (hboss : st.boss = some b) (hf : br.fires = true)
    (hty : (moveEnt bz).type = "bossBullet")
    (hin : outsideField (moveEnt bz) = false)
    (hmiss : hostileHit (moveEnt bz) st2.players = none) :
    (bossPhase br st).bullets = st.bullets ++ [bossBulletOf br (bossMove b)] ∧
      processBullet ids st2 bz = { st2 with bullets := st2.bullets ++ [moveEnt bz] } := by
  constructor
  · simp [bossPhase, hboss, hf]
  · unfold processBullet
    simp only [hin, Bool.false_eq_true, if_false]
    rw [if_pos (show (moveEnt bz).type = "enemyBullet" ∨
      (moveEnt bz).type = "bossBullet" from Or.inr hty)]
    rw [hmiss]

theorem C10_bossBullet_same_map_player_only_witness :
    (bossPhase { fires := true, bulletId := "bz", rvx := 0, rvy := 0 }
        bossScenarioState).bullets =
      bossScenarioState.bullets ++
        [bossBulletOf { fires := true, bulletId := "bz", rvx := 0, rvy := 0 }
          (bossMove (bossEntity "B"))] ∧
      processBullet constIds strayState strayBossBullet =
        { strayState with bullets := strayState.bullets ++ [moveEnt strayBossBullet] } :=
  C10_bossBullet_same_map_player_only
    { fires := true, bulletId := "bz", rvx := 0, rvy := 0 } constIds
    bossScenarioState strayState (bossEntity "B") strayBossBullet
    rfl rfl rfl
    (by norm_num [outsideField, moveEnt, strayBossBullet])
    rfl

theorem createBullet_gameState (ids : ℕ → String) (room : GameRoom) (p : Player) :
    (createBullet ids room p).gameState = room.gameState := by
  unfold createBullet
  split <;> rfl

theorem applyShoot_gameState (ids : ℕ → String) (pid : String) (room : GameRoom) :
    (applyShoot ids pid room).gameState = room.gameState := by
  unfold applyShoot
  cases room.players.find? fun p => p.entity.id = pid with
  | none => rfl
  | some p => exact createBullet_gameState ids room p

theorem spawnTick_gameState (S : SpawnRand) (room : GameRoom) :
    (spawnTick S room).gameState = room.gameState := by
  unfold spawnTick createBoss createEnemy
  repeat' split
  all_goals rfl

theorem updateGame_not_playing (R : TickRand) (room : GameRoom)
    (h : room.gameState ≠ "playing") : updateGame R room = room := by
  unfold updateGame
  exact if_pos h

/-- Claim C4: once a room is in "gameover" or "clear", no tick or input
other than an explicit restart changes the game state; a restart in such
a state always returns it to "playing" with `enemiesDefeated = 0`,
`bossSpawned = false`, no boss, bullets and enemies cleared, and every
player reset to health 100, score 0 and a fresh randomized spawn point
(both coordinates drawn in [300, 600)). -/
theorem C4_terminal_states_absorbing_restart_resets (room : GameRoom)
    (hterm : room.gameState = "gameover" ∨ room.gameState = "clear") :
    (∀ inp : Input, isRestart inp = false →
      (step room inp).gameState = room.gameState) ∧
      (∀ rx ry : ℕ → ℕ,
        (applyRestart rx ry room).gameState = "playing" ∧
          (applyRestart rx ry room).enemiesDefeated = 0 ∧
          (applyRestart rx ry room).bossSpawned = false ∧
          (applyRestart rx ry room).boss = none ∧
          (applyRestart rx ry room).bullets = [] ∧
          (applyRestart rx ry room).enemies = [] ∧
          ∀ p ∈ (applyRestart rx ry room).players,
            p.health = 100 ∧ p.score = 0 ∧
              (∃ k, p.entity.x = ((300 + rx k % 300 : ℕ) : ℚ) ∧
                p.entity.y = ((300 + ry k % 300 : ℕ) : ℚ)) ∧
              300 ≤ p.entity.x ∧ p.entity.x < 600 ∧
              300 ≤ p.entity.y ∧ p.entity.y < 600) := by
  have hnp : room.gameState ≠ "playing" := by
    rcases hterm with h | h <;> simp [h]
  constructor
  · intro inp hni
    cases inp with
    | tick R =>
        show (updateGame R room).gameState = room.gameState
        rw [updateGame_not_playing R room hnp]
    | spawn S => exact spawnTick_gameState S room
    | move pid vx vy => rfl
    | shoot pid ids => exact applyShoot_gameState ids pid room
    | restart rx ry => simp [isRestart] at hni
    | join J => rfl
    | leave pid => rfl
  · intro rx ry
    have hro : applyRestart rx ry room =
        { room with
          gameState := "playing"
          enemiesDefeated := 0
          bossSpawned := false
          boss := none
          enemies := []
          bullets := []
          players := room.players.enum.map fun kp =>
            { kp.2 with
              health := 100
              score := 0
              entity := { kp.2.entity with
                x := ((300 + rx kp.1 % 300 : ℕ) : ℚ)
                y := ((300 + ry kp.1 % 300 : ℕ) : ℚ) } } } := by
      unfold applyRestart
      exact if_pos hterm
    rw [hro]
    refine ⟨rfl, rfl, rfl, rfl, rfl, rfl, ?_⟩
    intro p hp
    simp only [List.mem_map] at hp
    obtain ⟨kp, hkp, rfl⟩ := hp
    refine ⟨rfl, rfl, ⟨kp.1, rfl, rfl⟩, ?_, ?_, ?_, ?_⟩
    · show (300 : ℚ) ≤ ((300 + rx kp.1 % 300 : ℕ) : ℚ)
      exact_mod_cast Nat.le_add_right 300 (rx kp.1 % 300)
    · show ((300 + rx kp.1 % 300 : ℕ) : ℚ) < 600
      exact_mod_cast (by omega : 300 + rx kp.1 % 300 < 600)
    · show (300 : ℚ) ≤ ((300 + ry kp.1 % 300 : ℕ) : ℚ)
      exact_mod_cast Nat.le_add_right 300 (ry kp.1 % 300)
    · show ((300 + ry kp.1 % 300 : ℕ) : ℚ) < 600
      exact_mod_cast (by omega : 300 + ry kp.1 % 300 < 600)

/-- A finished (gameover) room holding one player, for witnesses. -/
def endedRoom : GameRoom :=
  { newGameRoom "ended" with gameState := "gameover", players := [victimPlayer] }

theorem C4_terminal_states_absorbing_restart_resets_witness :
    (∀ inp : Input, isRestart inp = false →
      (step endedRoom inp).gameState = endedRoom.gameState) ∧
      (∀ rx ry : ℕ → ℕ,
        (applyRestart rx ry endedRoom).gameState = "playing" ∧
          (applyRestart rx ry endedRoom).enemiesDefeated = 0 ∧
          (applyRestart rx ry endedRoom).bossSpawned = false ∧
          (applyRestart rx ry endedRoom).boss = none ∧
          (applyRestart rx ry endedRoom).bullets = [] ∧
          (applyRestart rx ry endedRoom).enemies = [] ∧
          ∀ p ∈ (applyRestart rx ry endedRoom).players,
            p.health = 100 ∧ p.score = 0 ∧
              (∃ k, p.entity.x = ((300 + rx k % 300 : ℕ) : ℚ) ∧
                p.entity.y = ((300 + ry k % 300 : ℕ) : ℚ)) ∧
              300 ≤ p.entity.x ∧ p.entity.x < 600 ∧
              300 ≤ p.entity.y ∧ p.entity.y < 600) :=
  C4_terminal_states_absorbing_restart_resets endedRoom (Or.inl rfl)

theorem foldl_preserve {α β : Type} {P : α → Prop} {f : α → β → α}
    (hf : ∀ a b, P a → P (f a b)) :
    ∀ (l : List β) (a : α), P a → P (l.foldl f a) := by
  intro l
  induction l with
  | nil => intro a ha; exact ha
  | cons b bs ih => intro a ha; exact ih _ (hf a b ha)

theorem processBullet_boss_none (ids : ℕ → String) (st : TickState) (b : Entity)
    (h : st.boss = none) : (processBullet ids st b).boss = none := by
  obtain ⟨ps, bs, es, bo, its, ed, gs, nid⟩ := st
  replace h : bo = none := h
  subst h
  simp only [processBullet, friendlyVsEnemies]
  repeat' split
  all_goals rfl

theorem processItem_boss (st : TickState) (it : Entity) :
    (processItem st it).boss = st.boss := by
  simp only [processItem]
  repeat' split
  all_goals rfl

theorem processEnemy_boss (st : TickState) (e : Entity) :
    (processEnemy st e).boss = st.boss := by
  simp only [processEnemy]
  repeat' split
  all_goals rfl

theorem bossPhase_boss_none (br : BossRand) (st : TickState) (h : st.boss = none) :
    (bossPhase br st).boss = none := by
  unfold bossPhase
  rw [h]
  exact h

theorem updateGame_bossSpawned (R : TickRand) (room : GameRoom) :
    (updateGame R room).bossSpawned = room.bossSpawned := by
  unfold updateGame
  split <;> rfl

theorem updateGame_boss_none (R : TickRand) (room : GameRoom) (h : room.boss = none) :
    (updateGame R room).boss = none := by
  unfold updateGame
  split
  · exact h
  · show (bossPhase R.boss (enemyPhase (itemPhase (bulletPhase R (enemyFirePhase R
      { toTick room with players := room.players.map movePlayer }))))).boss = none
    apply bossPhase_boss_none
    unfold enemyPhase
    apply foldl_preserve fun a b ha => (processEnemy_boss a b).trans ha
    unfold itemPhase
    apply foldl_preserve fun a b ha => (processItem_boss a b).trans ha
    unfold bulletPhase
    apply foldl_preserve fun a b ha => processBullet_boss_none R.itemIds a b ha
    exact h

theorem spawnTick_of_spawned (S : SpawnRand) (room : GameRoom)
    (h : room.bossSpawned = true) : spawnTick S room = room := by
  unfold spawnTick createEnemy
  by_cases hg : room.gameState = "playing"
  · rw [if_pos hg, if_neg (by simp [h]), if_pos (Or.inr (by simp [h]))]
  · rw [if_neg hg]

theorem applyShoot_bossSpawned (ids : ℕ → String) (pid : String) (room : GameRoom) :
    (applyShoot ids pid room).bossSpawned = room.bossSpawned := by
  unfold applyShoot createBullet
  repeat' split
  all_goals rfl

/-- Claim C7: per play-through the boss spawns at most once, and the
spawn-cadence handler installs it exactly when the room is playing with
at least 20 defeated enemies and no boss spawned yet; once `bossSpawned`
is set it survives every event except restart, the spawn handler becomes
a no-op (in particular ordinary enemy spawning stops), and a tick never
creates a boss on its own. -/
theorem C7_boss_spawn_policy (room : GameRoom) :
    (room.bossSpawned = true →
      (∀ S, spawnTick S room = room) ∧
        (∀ inp, isRestart inp = false → (step room inp).bossSpawned = true)) ∧
      (room.bossSpawned = false → room.gameState = "playing" →
        20 ≤ room.enemiesDefeated →
        ∀ S, spawnTick S room = createBoss S.bossId room ∧
          (spawnTick S room).bossSpawned = true ∧
          (spawnTick S room).boss = some (bossEntity S.bossId)) ∧
      (¬ (room.gameState = "playing" ∧ 20 ≤ room.enemiesDefeated ∧
          room.bossSpawned = false) →
        ∀ S, (spawnTick S room).boss = room.boss ∧
          (spawnTick S room).bossSpawned = room.bossSpawned) ∧
      (room.boss = none → ∀ R, (updateGame R room).boss = none) := by
  refine ⟨?_, ?_, ?_, fun h R => updateGame_boss_none R room h⟩
  · intro hsp
    refine ⟨fun S => spawnTick_of_spawned S room hsp, ?_⟩
    intro inp hni
    cases inp with
    | tick R =>
        show (updateGame R room).bossSpawned = true
        rw [updateGame_bossSpawned]; exact hsp
    | spawn S =>
        show (spawnTick S room).bossSpawned = true
        rw [spawnTick_of_spawned S room hsp]; exact hsp
    | move pid vx vy => exact hsp
    | shoot pid ids =>
        show (applyShoot ids pid room).bossSpawned = true
        rw [applyShoot_bossSpawned]; exact hsp
    | restart rx ry => simp [isRestart] at hni
    | join J => exact hsp
    | leave pid => exact hsp
  · intro hsp hg h20 S
    have hcond : 20 ≤ room.enemiesDefeated ∧ room.bossSpawned = false := ⟨h20, hsp⟩
    unfold spawnTick
    rw [if_pos hg, if_pos hcond]
    exact ⟨rfl, rfl, rfl⟩
  · intro hne S
    unfold spawnTick createEnemy
    by_cases hg : room.gameState = "playing"
    · have hcond : ¬ (20 ≤ room.enemiesDefeated ∧ room.bossSpawned = false) := by
        intro hc
        exact hne ⟨hg, hc.1, hc.2⟩
      rw [if_pos hg, if_neg hcond]
      split <;> exact ⟨rfl, rfl⟩
    · rw [if_neg hg]
      exact ⟨rfl, rfl⟩

/-- A playing room that has reached the boss threshold. -/
def eligibleRoom : GameRoom :=
  { newGameRoom "eligible" with enemiesDefeated := 20, players := [victimPlayer] }

/-- A fixed spawn oracle. -/
def someSpawn : SpawnRand :=
  { enemyId := "en", bossId := "bo", rx := 0, rvx := 0, rvy := 0 }

theorem C7_boss_spawn_policy_witness :
    spawnTick someSpawn eligibleRoom = createBoss someSpawn.bossId eligibleRoom ∧
      (spawnTick someSpawn eligibleRoom).bossSpawned = true ∧
      (spawnTick someSpawn eligibleRoom).boss = some (bossEntity someSpawn.bossId) :=
  (C7_boss_spawn_policy eligibleRoom).2.1 rfl rfl (by decide) someSpawn

/-- The per-player safety predicate of the spec: health within [0, 100]
and nonnegative score. -/
def PlayerInv (p : Player) : Prop :=
  0 ≤ p.health ∧ p.health ≤ 100 ∧ 0 ≤ p.score

/-- All players of a list satisfy `PlayerInv`. -/
def PlayersInv (ps : List Player) : Prop :=
  ∀ p ∈ ps, PlayerInv p

theorem playersInv_cons {p : Player} {ps : List Player} (hp : PlayerInv p)
    (hps : PlayersInv ps) : PlayersInv (p :: ps) := by
  intro q hq
  rcases List.mem_cons.1 hq with rfl | hmem
  · exact hp
  · exact hps q hmem

theorem playersInv_of_cons {p : Player} {ps : List Player}
    (h : PlayersInv (p :: ps)) : PlayerInv p ∧ PlayersInv ps :=
  ⟨h p (List.mem_cons_self p ps), fun q hq => h q (List.mem_cons_of_mem p hq)⟩

theorem playersInv_append {ps qs : List Player} (h1 : PlayersInv ps)
    (h2 : PlayersInv qs) : PlayersInv (ps ++ qs) := by
  intro q hq
  rcases List.mem_append.1 hq with hmem | hmem
  · exact h1 q hmem
  · exact h2 q hmem

theorem hostileHit_inv (b : Entity) :
    ∀ (ps qs : List Player), hostileHit b ps = some qs → PlayersInv ps → PlayersInv qs := by
  intro ps
  induction ps with
  | nil => intro qs h; simp [hostileHit] at h
  | cons p ps ih =>
      intro qs h hinv
      obtain ⟨hp, hps⟩ := playersInv_of_cons hinv
      rw [hostileHit] at h
      split at h
      · obtain rfl := Option.some.injEq .. ▸ h
        refine playersInv_cons ⟨?_, ?_, hp.2.2⟩ hps
        · show 0 ≤ if p.health - 15 < 0 then 0 else p.health - 15
          split <;> omega
        · show (if p.health - 15 < 0 then 0 else p.health - 15) ≤ 100
          obtain ⟨h1, h2, h3⟩ := hp
          split <;> omega
      · rw [Option.map_eq_some'] at h
        obtain ⟨qs0, hq0, rfl⟩ := h
        exact playersInv_cons hp (ih qs0 hq0 hps)

theorem creditShooter_inv (b : Entity) :
    ∀ ps : List Player, PlayersInv ps → PlayersInv (creditShooter b ps) := by
  intro ps
  induction ps with
  | nil => intro h; exact h
  | cons p ps ih =>
      intro hinv
      obtain ⟨hp, hps⟩ := playersInv_of_cons hinv
      rw [creditShooter]
      split
      · refine playersInv_cons ⟨hp.1, hp.2.1, ?_⟩ hps
        show 0 ≤ p.score + 10
        have := hp.2.2
        omega
      · exact playersInv_cons hp (ih hps)

theorem itemPickup_inv (it : Entity) :
    ∀ (ps qs : List Player), itemPickup it ps = some qs → PlayersInv ps → PlayersInv qs := by
  intro ps
  induction ps with
  | nil => intro qs h; simp [itemPickup] at h
  | cons p ps ih =>
      intro qs h hinv
      obtain ⟨hp, hps⟩ := playersInv_of_cons hinv
      rw [itemPickup] at h
      split at h
      · obtain rfl := Option.some.injEq .. ▸ h
        exact playersInv_cons ⟨hp.1, hp.2.1, hp.2.2⟩ hps
      · rw [Option.map_eq_some'] at h
        obtain ⟨qs0, hq0, rfl⟩ := h
        exact playersInv_cons hp (ih qs0 hq0 hps)

theorem enemyHitPlayers_inv (e : Entity) :
    ∀ (ps : List Player) (r : List Player × Bool), enemyHitPlayers e ps = some r →
      PlayersInv ps → PlayersInv r.1 := by
  intro ps
  induction ps with
  | nil => intro r h; simp [enemyHitPlayers] at h
  | cons p ps ih =>
      intro r h hinv
      obtain ⟨hp, hps⟩ := playersInv_of_cons hinv
      rw [enemyHitPlayers] at h
      split at h
      · dsimp only at h
        split at h
        · obtain rfl := Option.some.injEq .. ▸ h
          exact playersInv_cons ⟨le_refl 0, by norm_num, hp.2.2⟩ hps
        · obtain rfl := Option.some.injEq .. ▸ h
          refine playersInv_cons ⟨?_, ?_, hp.2.2⟩ hps
          · show 0 ≤ p.health - 10
            omega
          · show p.health - 10 ≤ 100
            have := hp.2.1
            omega
      · rw [Option.map_eq_some'] at h
        obtain ⟨r0, hr0, rfl⟩ := h
        exact playersInv_cons hp (ih r0 hr0 hps)

theorem bossPlayersGo_inv (b : Entity) :
    ∀ (ps acc : List Player) (gs : String), PlayersInv acc → PlayersInv ps →
      PlayersInv (bossPlayersGo b acc gs ps).1 := by
  intro ps
  induction ps with
  | nil => intro acc gs hacc _; exact hacc
  | cons p ps ih =>
      intro acc gs hacc hinv
      obtain ⟨hp, hps⟩ := playersInv_of_cons hinv
      rw [bossPlayersGo]
      split
      · dsimp only
        split
        · exact ih _ _ (playersInv_append hacc
            (playersInv_cons ⟨le_refl 0, by norm_num, hp.2.2⟩ fun q hq => by simp at hq)) hps
        · refine ih _ _ (playersInv_append hacc
            (playersInv_cons ⟨?_, ?_, hp.2.2⟩ fun q hq => by simp at hq)) hps
          · show 0 ≤ p.health - 20
            omega
          · show p.health - 20 ≤ 100
            have := hp.2.1
            omega
      · exact ih _ _ (playersInv_append hacc
          (playersInv_cons hp fun q hq => by simp at hq)) hps

theorem playersInv_map_movePlayer (ps : List Player) (h : PlayersInv ps) :
    PlayersInv (ps.map movePlayer) := by
  intro p hp
  obtain ⟨q, hq, rfl⟩ := List.mem_map.1 hp
  exact h q hq

theorem playersInv_map_bonus (ps : List Player) (h : PlayersInv ps) :
    PlayersInv (ps.map fun p => { p with score := p.score + 500 }) := by
  intro p hp
  obtain ⟨q, hq, rfl⟩ := List.mem_map.1 hp
  obtain ⟨h1, h2, h3⟩ := h q hq
  exact ⟨h1, h2, by show 0 ≤ q.score + 500; omega⟩

theorem friendlyVsEnemies_inv (ids : ℕ → String) (st : TickState) (b : Entity)
    (h : PlayersInv st.players) : PlayersInv (friendlyVsEnemies ids st b).players := by
  unfold friendlyVsEnemies
  split
  · exact creditShooter_inv b st.players h
  · exact h

theorem processBullet_inv (ids : ℕ → String) (st : TickState) (b : Entity)
    (h : PlayersInv st.players) : PlayersInv (processBullet ids st b).players := by
  simp only [processBullet]
  split
  · exact h
  split
  · split
    · next ps hps => exact hostileHit_inv _ _ _ hps h
    · exact h
  split
  · split
    · split
      · split
        · exact playersInv_map_bonus _ h
        · exact h
      · exact friendlyVsEnemies_inv ids st _ h
    · exact friendlyVsEnemies_inv ids st _ h
  · exact h

theorem processItem_inv (st : TickState) (it : Entity)
    (h : PlayersInv st.players) : PlayersInv (processItem st it).players := by
  simp only [processItem]
  split
  · exact h
  split
  · next ps hps => exact itemPickup_inv _ _ _ hps h
  · exact h

theorem processEnemy_inv (st : TickState) (e : Entity)
    (h : PlayersInv st.players) : PlayersInv (processEnemy st e).players := by
  simp only [processEnemy]
  split
  · exact h
  split
  · next r hr => exact enemyHitPlayers_inv _ _ _ hr h
  · exact h

theorem bossPhase_inv (br : BossRand) (st : TickState)
    (h : PlayersInv st.players) : PlayersInv (bossPhase br st).players := by
  simp only [bossPhase]
  split
  · exact h
  · refine bossPlayersGo_inv _ _ _ _ (fun q hq => by simp at hq) ?_
    split <;> exact h

theorem updateGame_inv (R : TickRand) (room : GameRoom)
    (h : PlayersInv room.players) : PlayersInv (updateGame R room).players := by
  unfold updateGame
  split
  · exact h
  · show PlayersInv (bossPhase R.boss (enemyPhase (itemPhase (bulletPhase R
      (enemyFirePhase R { toTick room with players := room.players.map movePlayer }))))).players
    apply bossPhase_inv
    unfold enemyPhase
    apply foldl_preserve (P := fun s : TickState => PlayersInv s.players)
      fun a b ha => processEnemy_inv a b ha
    unfold itemPhase
    apply foldl_preserve (P := fun s : TickState => PlayersInv s.players)
      fun a b ha => processItem_inv a b ha
    unfold bulletPhase
    apply foldl_preserve (P := fun s : TickState => PlayersInv s.players)
      fun a b ha => processBullet_inv R.itemIds a b ha
    exact playersInv_map_movePlayer room.players h

theorem createBullet_players (ids : ℕ → String) (room : GameRoom) (p : Player) :
    (createBullet ids room p).players = room.players := by
  unfold createBullet
  split <;> rfl

theorem spawnTick_players (S : SpawnRand) (room : GameRoom) :
    (spawnTick S room).players = room.players := by
  unfold spawnTick createBoss createEnemy
  repeat' split
  all_goals rfl

theorem step_inv (room : GameRoom) (inp : Input)
    (h : PlayersInv room.players) : PlayersInv (step room inp).players := by
  cases inp with
  | tick R => exact updateGame_inv R room h
  | spawn S =>
      show PlayersInv (spawnTick S room).players
      rw [spawnTick_players]
      exact h
  | move pid vx vy =>
      intro p hp
      obtain ⟨q, hq, rfl⟩ := List.mem_map.1 hp
      have := h q hq
      split
      · exact ⟨this.1, this.2.1, this.2.2⟩
      · exact this
  | shoot pid ids =>
      show PlayersInv (applyShoot ids pid room).players
      unfold applyShoot
      split
      · next p _ => rw [createBullet_players]; exact h
      · exact h
  | restart rx ry =>
      show PlayersInv (applyRestart rx ry room).players
      unfold applyRestart
      split
      · intro p hp
        obtain ⟨kp, _, rfl⟩ := List.mem_map.1 hp
        exact ⟨by norm_num, by norm_num, le_refl 0⟩
      · exact h
  | join J =>
      show PlayersInv (applyJoin J room).players
      refine playersInv_append h ?_
      intro p hp
      rw [List.mem_singleton] at hp
      subst hp
      exact ⟨by norm_num [newPlayer], by norm_num [newPlayer], le_refl 0⟩
  | leave pid =>
      intro p hp
      exact h p (List.mem_of_mem_filter hp)

/-- Claim C5: starting from any room whose players all satisfy the
initial bounds (health in [0, 100], score ≥ 0), after any sequence of
ticks, spawn ticks, inputs, restarts, joins and leaves every player's
health is still within [0, 100] and score still ≥ 0. -/
theorem C5_health_score_invariant (room : GameRoom)
    (h : ∀ p ∈ room.players, 0 ≤ p.health ∧ p.health ≤ 100 ∧ 0 ≤ p.score)
    (l : List Input) :
    ∀ p ∈ (run room l).players, 0 ≤ p.health ∧ p.health ≤ 100 ∧ 0 ≤ p.score := by
  unfold run
  exact foldl_preserve (P := fun r : GameRoom => PlayersInv r.players)
    (fun r i hr => step_inv r i hr) l room h

/-- A fixed tick oracle: no random shots fired. -/
def quietTick : TickRand :=
  { enemyFires := fun _ => false
    enemyBulletIds := constIds
    itemIds := constIds
    boss := { fires := false, bulletId := "qb", rvx := 0, rvy := 0 } }

/-- A starting room for the invariant witness. -/
def startRoom : GameRoom :=
  { newGameRoom "start" with players := [victimPlayer] }

/-- A sample event sequence: a spawn-cadence tick, a join, a physics
tick, a shot, a move and a restart attempt. -/
def demoInputs : List Input :=
  [Input.spawn someSpawn,
   Input.join { id := "joiner", rx := 7, ry := 11, rc := 2 },
   Input.tick quietTick,
   Input.shoot "v" constIds,
   Input.move "v" 3 (-3),
   Input.restart (fun _ => 0) (fun _ => 0),
   Input.tick quietTick,
   Input.leave "joiner"]

theorem C5_health_score_invariant_witness :
    ((run startRoom demoInputs).players.all fun p =>
      0 ≤ p.health ∧ p.health ≤ 100 ∧ 0 ≤ p.score) = true := by
  rw [List.all_eq_true]
  intro p hp
  exact decide_eq_true
    (C5_health_score_invariant startRoom
      (by
        intro q hq
        rw [show startRoom.players = [victimPlayer] from rfl, List.mem_singleton] at hq
        subst hq
        exact ⟨by norm_num [victimPlayer], by norm_num [victimPlayer], le_refl 0⟩)
      demoInputs p hp)

theorem hostileHit_length (b : Entity) :
    ∀ ps qs, hostileHit b ps = some qs → qs.length = ps.length := by
  intro ps
  induction ps with
  | nil => intro qs h; simp [hostileHit] at h
  | cons p ps ih =>
      intro qs h
      rw [hostileHit] at h
      split at h
      · obtain rfl := Option.some.injEq .. ▸ h
        simp
      · rw [Option.map_eq_some'] at h
        obtain ⟨qs0, hq0, rfl⟩ := h
        simp [ih qs0 hq0]

theorem creditShooter_length (b : Entity) :
    ∀ ps : List Player, (creditShooter b ps).length = ps.length := by
  intro ps
  induction ps with
  | nil => rfl
  | cons p ps ih =>
      rw [creditShooter]
      split
      · simp
      · simp [ih]

theorem itemPickup_length (it : Entity) :
    ∀ ps qs, itemPickup it ps = some qs → qs.length = ps.length := by
  intro ps
  induction ps with
  | nil => intro qs h; simp [itemPickup] at h
  | cons p ps ih =>
      intro qs h
      rw [itemPickup] at h
      split at h
      · obtain rfl := Option.some.injEq .. ▸ h
        simp
      · rw [Option.map_eq_some'] at h
        obtain ⟨qs0, hq0, rfl⟩ := h
        simp [ih qs0 hq0]

theorem enemyHitPlayers_length (e : Entity) :
    ∀ ps r, enemyHitPlayers e ps = some r → r.1.length = ps.length := by
  intro ps
  induction ps with
  | nil => intro r h; simp [enemyHitPlayers] at h
  | cons p ps ih =>
      intro r h
      rw [enemyHitPlayers] at h
      split at h
      · dsimp only at h
        split at h
        · obtain rfl := Option.some.injEq .. ▸ h
          simp
        · obtain rfl := Option.some.injEq .. ▸ h
          simp
      · rw [Option.map_eq_some'] at h
        obtain ⟨r0, hr0, rfl⟩ := h
        simp [ih r0 hr0]

theorem bossPlayersGo_length (b : Entity) :
    ∀ (ps acc : List Player) (gs : String),
      (bossPlayersGo b acc gs ps).1.length = acc.length + ps.length := by
  intro ps
  induction ps with
  | nil => intro acc gs; simp [bossPlayersGo]
  | cons p ps ih =>
      intro acc gs
      rw [bossPlayersGo]
      split
      · dsimp only
        split
        · rw [ih]
          simp
          omega
        · rw [ih]
          simp
          omega
      · rw [ih]
        simp
        omega

theorem processBullet_length (ids : ℕ → String) (st : TickState) (b : Entity) :
    (processBullet ids st b).players.length = st.players.length := by
  simp only [processBullet]
  split
  · rfl
  split
  · split
    · next ps hps => exact hostileHit_length _ _ _ hps
    · rfl
  split
  · split
    · split
      · split
        · simp
        · rfl
      · unfold friendlyVsEnemies
        split
        · exact creditShooter_length _ _
        · rfl
    · unfold friendlyVsEnemies
      split
      · exact creditShooter_length _ _
      · rfl
  · rfl

theorem processItem_length (st : TickState) (it : Entity) :
    (processItem st it).players.length = st.players.length := by
  simp only [processItem]
  split
  · rfl
  split
  · next ps hps => exact itemPickup_length _ _ _ hps
  · rfl

theorem processEnemy_length (st : TickState) (e : Entity) :
    (processEnemy st e).players.length = st.players.length := by
  simp only [processEnemy]
  split
  · rfl
  split
  · next r hr => exact enemyHitPlayers_length _ _ _ hr
  · rfl

theorem bossPhase_length (br : BossRand) (st : TickState) :
    (bossPhase br st).players.length = st.players.length := by
  simp only [bossPhase]
  split
  · rfl
  · rw [bossPlayersGo_length]
    split <;> simp

theorem updateGame_players_length (R : TickRand) (room : GameRoom) :
    (updateGame R room).players.length = room.players.length := by
  unfold updateGame
  split
  · rfl
  · show (bossPhase R.boss (enemyPhase (itemPhase (bulletPhase R (enemyFirePhase R
      { toTick room with players := room.players.map movePlayer }))))).players.length =
      room.players.length
    rw [bossPhase_length]
    have hfix : ∀ (st : TickState),
        st.players.length = room.players.length →
        (enemyPhase st).players.length = room.players.length := by
      intro st hst
      unfold enemyPhase
      exact foldl_preserve
        (P := fun s : TickState => s.players.length = room.players.length)
        (fun a b ha => (processEnemy_length a b).trans ha) _ _ hst
    apply hfix
    have hfix2 : ∀ (st : TickState),
        st.players.length = room.players.length →
        (itemPhase st).players.length = room.players.length := by
      intro st hst
      unfold itemPhase
      exact foldl_preserve
        (P := fun s : TickState => s.players.length = room.players.length)
        (fun a b ha => (processItem_length a b).trans ha) _ _ hst
    apply hfix2
    unfold bulletPhase
    apply foldl_preserve
      (P := fun s : TickState => s.players.length = room.players.length)
      (fun a b ha => (processBullet_length R.itemIds a b).trans ha)
    simp [enemyFirePhase]

/-- The matchmaker's openness test from `handleWebSocket`: fewer than 4
players and still playing. -/
def roomOpen (r : GameRoom) : Bool :=
  (r.players.length < 4) && (r.gameState = "playing")

/-- Insert a freshly built player into a room (the registration step of
`handleWebSocket`). -/
def addPlayerToRoom (J : JoinRand) (r : GameRoom) : GameRoom :=
  { r with players := r.players ++ [newPlayer J] }

/-- A brand-new room created for a session when no room is open. -/
def newRoomFor (J : JoinRand) (rid : String) : GameRoom :=
  { newGameRoom rid with players := [newPlayer J] }

/-- `matchmake`: scan live rooms in iteration order for the first open one
and place the player there; otherwise create and register a fresh room
holding the player. -/
def matchmake (J : JoinRand) (rid : String) : List GameRoom → List GameRoom
  | [] => [newRoomFor J rid]
  | r :: rs => if roomOpen r then addPlayerToRoom J r :: rs else r :: matchmake J rid rs

/-- Index of the first open room, in iteration order. -/
def firstOpenIdx : List GameRoom → Option ℕ
  | [] => none
  | r :: rs => if roomOpen r then some 0 else (firstOpenIdx rs).map (· + 1)

/-- Whether an input is a join (at the registry level players enter rooms
only through `matchmake`). -/
def isJoin : Input → Bool
  | .join _ => true
  | _ => false

/-- Registry-level events: a session admission, a room-local event
delivered to the i-th room, or `gameLoop` retiring an empty room. -/
inductive RegInput where
  | connect : JoinRand → String → RegInput
  | act : ℕ → Input → RegInput
  | retire : ℕ → RegInput

/-- One step of the room registry. -/
def regStep (rooms : List GameRoom) : RegInput → List GameRoom
  | .connect J rid => matchmake J rid rooms
  | .act i inp =>
      if isJoin inp then rooms
      else
        match rooms[i]? with
        | some r => rooms.set i (step r inp)
        | none => rooms
  | .retire i =>
      match rooms[i]? with
      | some r => if r.players.length = 0 then rooms.eraseIdx i else rooms
      | none => rooms

theorem matchmake_of_none (J : JoinRand) (rid : String) :
    ∀ rooms, firstOpenIdx rooms = none →
      matchmake J rid rooms = rooms ++ [newRoomFor J rid] := by
  intro rooms
  induction rooms with
  | nil => intro _; rfl
  | cons r rs ih =>
      intro h
      rw [firstOpenIdx] at h
      split at h
      · exact absurd h (by simp)
      · rw [Option.map_eq_none'] at h
        rw [matchmake, if_neg (by simp_all), ih h]
        rfl

theorem matchmake_of_some (J : JoinRand) (rid : String) :
    ∀ rooms i, firstOpenIdx rooms = some i →
      ∃ r, rooms[i]? = some r ∧ roomOpen r = true ∧
        matchmake J rid rooms = rooms.set i (addPlayerToRoom J r) := by
  intro rooms
  induction rooms with
  | nil => intro i h; simp [firstOpenIdx] at h
  | cons r rs ih =>
      intro i h
      rw [firstOpenIdx] at h
      split at h
      · obtain rfl := Option.some.injEq .. ▸ h
        refine ⟨r, by simp, by assumption, ?_⟩
        rw [matchmake, if_pos (by assumption)]
        rfl
      · rw [Option.map_eq_some'] at h
        obtain ⟨i0, hi0, rfl⟩ := h
        obtain ⟨r0, hr0, hopen, heq⟩ := ih i0 hi0
        refine ⟨r0, by simpa using hr0, hopen, ?_⟩
        rw [matchmake, if_neg (by simp_all), heq]
        rfl

theorem step_players_length_le (room : GameRoom) (inp : Input)
    (h : isJoin inp = false) :
    (step room inp).players.length ≤ room.players.length := by
  cases inp with
  | tick R => exact le_of_eq (updateGame_players_length R room)
  | spawn S =>
      show (spawnTick S room).players.length ≤ room.players.length
      rw [spawnTick_players]
  | move pid vx vy => simp [step, applyMove]
  | shoot pid ids =>
      show (applyShoot ids pid room).players.length ≤ room.players.length
      unfold applyShoot
      split
      · rw [createBullet_players]
      · exact le_refl _
  | restart rx ry =>
      show (applyRestart rx ry room).players.length ≤ room.players.length
      unfold applyRestart
      split
      · simp
      · exact le_refl _
  | join J => simp [isJoin] at h
  | leave pid =>
      show (applyLeave pid room).players.length ≤ room.players.length
      unfold applyLeave
      exact List.length_filter_le _ _

theorem matchmake_occupancy (J : JoinRand) (rid : String) :
    ∀ rooms, (∀ r ∈ rooms, r.players.length ≤ 4) →
      ∀ r ∈ matchmake J rid rooms, r.players.length ≤ 4 := by
  intro rooms
  induction rooms with
  | nil =>
      intro _ r hr
      rw [matchmake] at hr
      rw [List.mem_singleton] at hr
      subst hr
      show (newRoomFor J rid).players.length ≤ 4
      norm_num [newRoomFor, newGameRoom]
  | cons q qs ih =>
      intro hinv r hr
      rw [matchmake] at hr
      split at hr
      · rcases List.mem_cons.1 hr with rfl | hmem
        · show (addPlayerToRoom J q).players.length ≤ 4
          have hopen : roomOpen q = true := by assumption
          rw [roomOpen, Bool.and_eq_true, decide_eq_true_eq] at hopen
          simp [addPlayerToRoom]
          omega
        · exact hinv r (List.mem_cons_of_mem q hmem)
      · rcases List.mem_cons.1 hr with rfl | hmem
        · exact hinv _ (List.mem_cons_self _ _)
        · exact ih (fun r0 hr0 => hinv r0 (List.mem_cons_of_mem q hr0)) r hmem

theorem regStep_occupancy (rooms : List GameRoom) (inp : RegInput)
    (hinv : ∀ r ∈ rooms, r.players.length ≤ 4) :
    ∀ r ∈ regStep rooms inp, r.players.length ≤ 4 := by
  cases inp with
  | connect J rid => exact matchmake_occupancy J rid rooms hinv
  | act i inp0 =>
      show ∀ r ∈ regStep rooms (.act i inp0), r.players.length ≤ 4
      simp only [regStep]
      split
      · exact hinv
      · split
        · next r0 hr0 =>
            intro r hr
            rcases List.mem_or_eq_of_mem_set hr with hmem | rfl
            · exact hinv r hmem
            · refine le_trans (step_players_length_le r0 inp0 (by simp_all)) ?_
              exact hinv r0 (List.getElem?_mem hr0)
        · exact hinv
  | retire i =>
      show ∀ r ∈ regStep rooms (.retire i), r.players.length ≤ 4
      simp only [regStep]
      split
      · next r0 hr0 =>
          split
          · intro r hr
            exact hinv r (List.eraseIdx_subset _ _ hr)
          · exact hinv
      · exact hinv

/-- Claim C8: the matchmaker never selects a room with 4 players or a
room no longer playing — when no open room exists it creates a new one —
and consequently, over any sequence of admissions, room events and
retirements starting from rooms within capacity, every room's occupancy
stays at most 4. -/
theorem C8_matchmaker_selection_and_capacity (J : JoinRand) (rid : String)
    (rooms : List GameRoom) :
    (firstOpenIdx rooms = none →
      matchmake J rid rooms = rooms ++ [newRoomFor J rid]) ∧
      (∀ i, firstOpenIdx rooms = some i →
        ∃ r, rooms[i]? = some r ∧ r.players.length < 4 ∧ r.gameState = "playing" ∧
          matchmake J rid rooms = rooms.set i (addPlayerToRoom J r)) ∧
      (∀ l : List RegInput, (∀ r ∈ rooms, r.players.length ≤ 4) →
        ∀ r ∈ l.foldl regStep rooms, r.players.length ≤ 4) := by
  refine ⟨matchmake_of_none J rid rooms, ?_, ?_⟩
  · intro i h
    obtain ⟨r, hr, hopen, heq⟩ := matchmake_of_some J rid rooms i h
    rw [roomOpen, Bool.and_eq_true, decide_eq_true_eq, decide_eq_true_eq] at hopen
    exact ⟨r, hr, hopen.1, hopen.2, heq⟩
  · intro l hinv
    exact foldl_preserve
      (P := fun rs : List GameRoom => ∀ r ∈ rs, r.players.length ≤ 4)
      (fun rs i hrs => regStep_occupancy rs i hrs) l rooms hinv

/-- A full (4-player) room for the matchmaker witness. -/
def fullRoom : GameRoom :=
  { newGameRoom "full" with
    players := [victimPlayer, shooterPlayer, evenFirePlayer, oddFirePlayer] }

/-- A fixed join oracle. -/
def someJoin : JoinRand := { id := "newbie", rx := 1, ry := 2, rc := 3 }

theorem C8_matchmaker_selection_and_capacity_witness :
    matchmake someJoin "fresh" [fullRoom] = [fullRoom] ++ [newRoomFor someJoin "fresh"] ∧
      ∀ r ∈ [RegInput.connect someJoin "fresh"].foldl regStep [fullRoom],
        r.players.length ≤ 4 :=
  ⟨(C8_matchmaker_selection_and_capacity someJoin "fresh" [fullRoom]).1 (by decide),
    (C8_matchmaker_selection_and_capacity someJoin "fresh" [fullRoom]).2.2
      [RegInput.connect someJoin "fresh"]
      (by
        intro r hr
        rw [List.mem_singleton] at hr
        subst hr
        decide)⟩
